import Mathlib

/-!
Verification of the cohort materialization bot
(`src/bots` cohort bot: `createCohortGroup`, `executeQuery`,
`extractPatientIds`, `performSetOperation`).

The bot executes an ordered list of FHIR queries, extracts patient
identifiers from every result page, folds the per-query identifier lists
into a running set (seed / intersect / subtract), deduplicates, and
persists a FHIR `Group` resource with one traceability extension per query.

The embedding below is a direct translation of the TypeScript source:
`medplum.searchResourcePages` is modelled as an environment mapping a
(resource type, search parameter string) pair to either a search failure
or a list of result pages, and `medplum.createResource` as appending to an
explicit store of created groups.  Machine-level details that the claims
do not touch (HTTP, authentication, JSON) are outside the model.
-/

namespace CohortBot

/-- A search-result entity, reduced to the three fields the bot reads:
`resourceType`, `id`, and `subject.reference` (flattened; a missing
`subject` or a missing `reference` are both `none`). -/
structure FhirResource where
  resourceType : String
  id : Option String
  subjectReference : Option String
deriving Repr, DecidableEq

/-- The `Query` interface of the bot: one inclusion/exclusion criterion. -/
structure Query where
  resource : String
  searchParams : String
  exclude : Bool
  rationale : String
deriving Repr, DecidableEq

/-- The `CohortOutput` interface: the criteria-resolver response. -/
structure CohortOutput where
  queries : List Query
  sql : String
  cohortDescription : String
deriving Repr, DecidableEq

/-- The record store's search interface: `medplum.searchResourcePages`
keyed by resource type and search parameter string (the only arguments
`executeQuery` passes to it).  A search either fails with a message or
returns finitely many pages, each a list of entities. -/
structure SearchEnv where
  pages : String → String → Except String (List (List FhirResource))

/-- Worker for JavaScript `String.prototype.split` with a one-character
separator: cut the character list at every separator occurrence; `acc` holds
the current segment reversed. -/
def splitOnCharAux (sep : Char) : List Char → List Char → List (List Char)
  | [], acc => [acc.reverse]
  | c :: cs, acc =>
    if c = sep then acc.reverse :: splitOnCharAux sep cs []
    else splitOnCharAux sep cs (c :: acc)

/-- JavaScript `s.split(sep)` for a one-character separator: `"a/b" →
["a","b"]`, `"" → [""]`, `"a/" → ["a",""]`. -/
def jsSplit (sep : Char) (s : String) : List String :=
  (splitOnCharAux sep s.data []).map String.mk

/-- The expression `resource.resourceType === "Patient" ? resource.id :
resource.subject?.reference?.split("/")[1]` — the raw extracted value,
`none` when JavaScript would produce `undefined`. -/
def rawPatientId (r : FhirResource) : Option String :=
  if r.resourceType = "Patient" then r.id
  else r.subjectReference.bind (fun s => (jsSplit '/' s).get? 1)

/-- The function `extractPatientIds`: map every entity to its extracted id (with
`patientId || ""` collapsing `undefined` to the empty string) and keep the
non-empty ones.  The source wraps each id in `{ patientId }`; the wrapper
is immediately projected away by its only caller, so the embedding returns
the ids directly. -/
def extractPatientIds (resources : List FhirResource) : List String :=
  (resources.map (fun r => (rawPatientId r).getD "")).filter (fun s => s ≠ "")

/-- The function `executeQuery`: drain all pages of one search and concatenate the ids
extracted from each page; a failed page fetch aborts the query with the
search's failure. -/
def executeQuery (env : SearchEnv) (q : Query) : Except String (List String) :=
  match env.pages q.resource q.searchParams with
  | .error e => .error e
  | .ok pages => .ok (pages.flatMap extractPatientIds)

/-- The function `performSetOperation`: `setA.filter(id => exclude ? !setB.includes(id)
: setB.includes(id))`. -/
def performSetOperation (exclude : Bool) (setA setB : List String) : List String :=
  setA.filter (fun id => if exclude then !(setB.contains id) else setB.contains id)

/-- One iteration of the accumulation in `createCohortGroup`:
`if (currentPatientIds.length === 0) currentPatientIds = patientIds; else
currentPatientIds = performSetOperation(query.exclude, currentPatientIds,
patientIds)`. -/
def foldStep (current : List String) (q : Query) (ids : List String) : List String :=
  if current.length = 0 then ids
  else performSetOperation q.exclude current ids

/-- One element of the `extension` field of an extension (FHIR
`valueString` / `valueBoolean` variants). -/
structure ExtensionElement where
  url : String
  valueString : Option String
  valueBoolean : Option Bool
deriving Repr, DecidableEq

/-- One `criteria` traceability extension built per query. -/
structure CriteriaExtension where
  url : String
  extension : List ExtensionElement
deriving Repr, DecidableEq

/-- The traceability extension `createCohortGroup` pushes for each query:
`query` and `exclude` elements always, a `rationale` element when
`query.rationale` is truthy (for a string: non-empty). -/
def mkCriteriaExtension (q : Query) : CriteriaExtension :=
  { url := "criteria"
    extension :=
      [ { url := "query", valueString := some q.searchParams, valueBoolean := none },
        { url := "exclude", valueString := none, valueBoolean := some q.exclude } ] ++
      (if q.rationale ≠ "" then
        [{ url := "rationale", valueString := some q.rationale, valueBoolean := none }]
      else []) }

/-- The `for (const query of cohortOutput.queries)` loop of
`createCohortGroup`: fold the running id list and accumulate one
traceability extension per query; a failed search aborts the whole loop
with that search's failure (the thrown error propagates). -/
def runQueriesAux (env : SearchEnv) :
    List String → List CriteriaExtension → List Query →
    Except String (List String × List CriteriaExtension)
  | current, exts, [] => .ok (current, exts)
  | current, exts, q :: qs =>
    match executeQuery env q with
    | .error e => .error e
    | .ok ids => runQueriesAux env (foldStep current q ids) (exts ++ [mkCriteriaExtension q]) qs

/-- The final id list computed by the loop (the `currentPatientIds`
variable after the loop), starting from the empty array. -/
def foldIds (env : SearchEnv) (qs : List Query) : Except String (List String) :=
  (runQueriesAux env [] [] qs).map Prod.fst

/-- Worker for `Array.from(new Set(...))`: walk the list keeping the first
occurrence of each id; `seen` is the set of ids already emitted. -/
def dedupFirstAux (seen : List String) : List String → List String
  | [] => []
  | a :: rest =>
    if seen.contains a then dedupFirstAux seen rest
    else a :: dedupFirstAux (a :: seen) rest

/-- The expression `Array.from(new Set(currentPatientIds))`: deduplicate keeping the
first occurrence of each id, in insertion order (JavaScript `Set`
semantics). -/
def dedupFirst (l : List String) : List String :=
  dedupFirstAux [] l

/-- ASCII whitespace, modelling the JavaScript `\s` character class on the
characters that actually occur in cohort descriptions. -/
def isWs (c : Char) : Bool :=
  c = ' ' || c = '\t' || c = '\n' || c = '\r'

/-- The regex replacement `replace(/\s+/g, '-')`: each maximal run of whitespace becomes one
hyphen.  The boolean argument records whether the previous character was
whitespace. -/
def collapseWsAux : Bool → List Char → List Char
  | _, [] => []
  | inWs, c :: cs =>
    if isWs c then
      (if inWs then collapseWsAux true cs else '-' :: collapseWsAux true cs)
    else c :: collapseWsAux false cs

/-- The value `(cohortOutput.cohortDescription || 'Cohort Group').replace(/\s+/g, '-')`. -/
def replaceWsWithHyphen (s : String) : String :=
  String.mk (collapseWsAux false s.data)

/-- A group member entry `{ entity: { reference: "Patient/<id>" } }`,
reduced to the reference string. -/
structure GroupMember where
  reference : String
deriving Repr, DecidableEq

/-- A group identifier `{ value: ... }`. -/
structure Identifier where
  value : String
deriving Repr, DecidableEq

/-- The outer extension `{ url: cohort-query, extension: [...] }`. -/
structure GroupExtension where
  url : String
  extension : List CriteriaExtension
deriving Repr, DecidableEq

/-- The `Group` resource the bot creates, reduced to the fields it sets. -/
structure Group where
  resourceType : String
  name : String
  active : Bool
  type : String
  actual : Bool
  extension : List GroupExtension
  identifier : List Identifier
  member : List GroupMember
deriving Repr, DecidableEq

/-- The URL of the outer traceability extension. -/
def cohortQueryUrl : String :=
  "https://your-organization.com/fhir/StructureDefinition/cohort-query"

/-- The `Group` value passed to `medplum.createResource` at the end of
`createCohortGroup`, given the final id list and the accumulated
traceability extensions. -/
def buildGroup (out : CohortOutput) (ids : List String)
    (exts : List CriteriaExtension) : Group :=
  let uniquePatientIds := dedupFirst ids
  let uniqueMembers := uniquePatientIds.map (fun id => GroupMember.mk ("Patient/" ++ id))
  let descOr := if out.cohortDescription = "" then "Cohort Group" else out.cohortDescription
  { resourceType := "Group"
    name := descOr
    active := false
    type := "person"
    actual := true
    extension := [{ url := cohortQueryUrl, extension := exts }]
    identifier := [{ value := replaceWsWithHyphen descOr }]
    member := uniqueMembers }

/-- The function `createCohortGroup`: run every query, then persist exactly one group.
The store models the record store's created resources; `createResource`
appends.  On a search failure no group is built and the store is
untouched (the exception propagates before the single `createResource`
call is reached). -/
def createCohortGroup (env : SearchEnv) (out : CohortOutput) (store : List Group) :
    Except String Group × List Group :=
  match runQueriesAux env [] [] out.queries with
  | .error e => (.error e, store)
  | .ok (ids, exts) =>
    let g := buildGroup out ids exts
    (.ok g, store ++ [g])

/-- The error of the first query whose search fails, if any. -/
def firstSearchFailure (env : SearchEnv) : List Query → Option String
  | [] => none
  | q :: qs =>
    match env.pages q.resource q.searchParams with
    | .error e => some e
    | .ok _ => firstSearchFailure env qs

/-- Modelled from the spec (section 4.2): the Set Accumulator fold with
`RunningSet` as a tagged value, `none` meaning unset.  Only the first
query seeds; every subsequent query folds via intersection or subtraction
even when the running set is empty at that point. -/
def specFoldAux (env : SearchEnv) :
    Option (List String) → List Query → Except String (List String)
  | running, [] => .ok (running.getD [])
  | running, q :: qs =>
    match executeQuery env q with
    | .error e => .error e
    | .ok ids =>
      match running with
      | none => specFoldAux env (some ids) qs
      | some cur => specFoldAux env (some (performSetOperation q.exclude cur ids)) qs

/-- The spec-worded fold from the unset sentinel. -/
def specFoldIds (env : SearchEnv) (qs : List Query) : Except String (List String) :=
  specFoldAux env none qs

/-- Modelled from the spec (P6): the per-entity contribution to the
extracted identifier list — an entity of the subject's own type
contributes its own id; an entity of another type contributes the id
parsed from its subject-reference field (second `/`-separated segment);
an entity yielding no identifier contributes nothing. -/
def specContribution (r : FhirResource) : List String :=
  if r.resourceType = "Patient" then
    match r.id with
    | some i => if i = "" then [] else [i]
    | none => []
  else
    match r.subjectReference with
    | some s =>
      match (jsSplit '/' s).get? 1 with
      | some i => if i = "" then [] else [i]
      | none => []
    | none => []

/-- Replace every query's rationale field, leaving everything else of the
specification unchanged. -/
def setRationales (f : Query → String) (out : CohortOutput) : CohortOutput :=
  { out with queries := out.queries.map (fun q => { q with rationale := f q }) }

/-- A Patient entity with the given id. -/
def patientRes (i : String) : FhirResource :=
  { resourceType := "Patient", id := some i, subjectReference := none }

/-- A Condition entity whose subject reference points at the given
patient id. -/
def condRes (i : String) : FhirResource :=
  { resourceType := "Condition", id := some ("c-" ++ i), subjectReference := some ("Patient/" ++ i) }

/-- A query with the given search parameter string and exclude flag. -/
def mkQuery (params : String) (exclude : Bool) : Query :=
  { resource := "Patient", searchParams := params, exclude := exclude, rationale := "" }

/-- Environment for the C1 counterexample: query `q1` matches nothing,
query `q2` matches patient C. -/
def envC1 : SearchEnv :=
  ⟨fun _res params =>
    match params with
    | "q1" => .ok [[]]
    | "q2" => .ok [[patientRes "C"]]
    | _ => .error "unknown query"⟩

/-- Specification for the C1 counterexample: two include queries. -/
def outC1 : CohortOutput :=
  { queries := [mkQuery "q1" false, mkQuery "q2" false]
    sql := ""
    cohortDescription := "c1" }

/-- Environment for the C3 counterexample and the order-sensitivity
instance: `inc` matches patients A and B, `exc` matches patient B. -/
def envC3 : SearchEnv :=
  ⟨fun _res params =>
    match params with
    | "inc" => .ok [[patientRes "A", patientRes "B"]]
    | "exc" => .ok [[patientRes "B"]]
    | _ => .error "unknown query"⟩

/-- Specification whose single, first query has `exclude = true`. -/
def outC3 : CohortOutput :=
  { queries := [mkQuery "exc" true]
    sql := ""
    cohortDescription := "c3" }

/-- Specification with zero queries. -/
def outC4 : CohortOutput :=
  { queries := []
    sql := ""
    cohortDescription := "c4" }

/-- Environment where every search fails. -/
def envFail : SearchEnv :=
  ⟨fun _res _params => .error "search failed"⟩

/-- Specification with one query, used against the failing environment. -/
def outFail : CohortOutput :=
  { queries := [mkQuery "q1" false]
    sql := ""
    cohortDescription := "cf" }

/-- Environment whose single query returns duplicate identifiers within a
page and across pages, from a non-Patient resource type. -/
def envDup : SearchEnv :=
  ⟨fun _res params =>
    match params with
    | "dup" => .ok [[condRes "A", condRes "A", condRes "B"], [condRes "B", condRes "A"]]
    | _ => .error "unknown query"⟩

/-- Specification with one Condition query producing duplicates. -/
def outDup : CohortOutput :=
  { queries := [{ resource := "Condition", searchParams := "dup", exclude := false, rationale := "why" }]
    sql := ""
    cohortDescription := "dup cohort" }

/-!  General lemmas about the accumulation loop.  -/

theorem runQueriesAux_append (env : SearchEnv) (qs1 qs2 : List Query) :
    ∀ (cur : List String) (exts : List CriteriaExtension),
      runQueriesAux env cur exts (qs1 ++ qs2) =
        match runQueriesAux env cur exts qs1 with
        | .error e => .error e
        | .ok p => runQueriesAux env p.1 p.2 qs2 := by
  induction qs1 with
  | nil => intro cur exts; rfl
  | cons q qs ih =>
    intro cur exts
    simp only [List.cons_append, runQueriesAux]
    cases h : executeQuery env q with
    | error e => rfl
    | ok ids => exact ih _ _

theorem runQueriesAux_exts_shift (env : SearchEnv) (qs : List Query) :
    ∀ (cur : List String) (exts : List CriteriaExtension),
      runQueriesAux env cur exts qs =
        (runQueriesAux env cur [] qs).map (fun p => (p.1, exts ++ p.2)) := by
  induction qs with
  | nil => intro cur exts; simp [runQueriesAux, Except.map]
  | cons q qs ih =>
    intro cur exts
    simp only [runQueriesAux]
    cases h : executeQuery env q with
    | error e => rfl
    | ok ids =>
      dsimp only
      rw [ih (foldStep cur q ids) (exts ++ [mkCriteriaExtension q]),
        ih (foldStep cur q ids) ([] ++ [mkCriteriaExtension q])]
      cases runQueriesAux env (foldStep cur q ids) [] qs with
      | error e => rfl
      | ok p => simp [Except.map]

theorem runQueriesAux_fst_exts (env : SearchEnv) (qs : List Query)
    (cur : List String) (exts : List CriteriaExtension) :
    (runQueriesAux env cur exts qs).map Prod.fst =
      (runQueriesAux env cur [] qs).map Prod.fst := by
  rw [runQueriesAux_exts_shift env qs cur exts]
  cases runQueriesAux env cur [] qs with
  | error e => rfl
  | ok p => rfl

theorem runQueriesAux_success_exts (env : SearchEnv) (qs : List Query) :
    ∀ (cur ids : List String) (exts es : List CriteriaExtension),
      runQueriesAux env cur exts qs = .ok (ids, es) →
      es = exts ++ qs.map mkCriteriaExtension := by
  induction qs with
  | nil =>
    intro cur ids exts es h
    simp only [runQueriesAux, Except.ok.injEq, Prod.mk.injEq] at h
    simp [h.2]
  | cons q qs ih =>
    intro cur ids exts es h
    unfold runQueriesAux at h
    cases he : executeQuery env q with
    | error e => simp [he] at h
    | ok l =>
      simp only [he] at h
      have := ih (foldStep cur q l) ids (exts ++ [mkCriteriaExtension q]) es h
      simp [this, List.append_assoc]

theorem runQueriesAux_rationale (env : SearchEnv) (f : Query → String) (qs : List Query) :
    ∀ (cur : List String) (exts1 exts2 : List CriteriaExtension),
      (runQueriesAux env cur exts1 (qs.map (fun q => { q with rationale := f q }))).map Prod.fst =
      (runQueriesAux env cur exts2 qs).map Prod.fst := by
  induction qs with
  | nil => intro cur e1 e2; rfl
  | cons q qs ih =>
    intro cur e1 e2
    simp only [List.map_cons, runQueriesAux]
    have hexe : executeQuery env { q with rationale := f q } = executeQuery env q := rfl
    rw [hexe]
    cases h : executeQuery env q with
    | error e => rfl
    | ok ids =>
      dsimp only
      have hfold : foldStep cur { q with rationale := f q } ids = foldStep cur q ids := rfl
      rw [hfold]
      exact ih _ _ _

theorem runQueriesAux_firstFailure (env : SearchEnv) (qs : List Query) (e : String)
    (h : firstSearchFailure env qs = some e) :
    ∀ (cur : List String) (exts : List CriteriaExtension),
      runQueriesAux env cur exts qs = .error e := by
  induction qs with
  | nil => simp [firstSearchFailure] at h
  | cons q qs ih =>
    intro cur exts
    unfold firstSearchFailure at h
    unfold runQueriesAux executeQuery
    cases hp : env.pages q.resource q.searchParams with
    | error e2 =>
      simp only [hp, Option.some.injEq] at h
      simp [h]
    | ok pages =>
      simp only [hp] at h
      exact ih h _ _

/-!  Lemmas about deduplication and member references.  -/

theorem mem_dedupFirstAux :
    ∀ (l seen : List String) (x : String),
      x ∈ dedupFirstAux seen l ↔ x ∈ l ∧ ¬ x ∈ seen := by
  intro l
  induction l with
  | nil => intro seen x; simp [dedupFirstAux]
  | cons a rest ih =>
    intro seen x
    by_cases ha : seen.contains a
    · have hmem : a ∈ seen := List.elem_iff.mp ha
      rw [dedupFirstAux, if_pos ha]
      rw [ih]
      by_cases hxa : x = a
      · subst hxa
        simp [hmem]
      · simp [hxa]
    · rw [dedupFirstAux, if_neg ha]
      simp only [List.mem_cons, ih]
      by_cases hxa : x = a
      · subst hxa
        have : ¬ x ∈ seen := fun hc => ha (List.elem_iff.mpr hc)
        simp [this]
      · simp [hxa]

theorem mem_dedupFirst (l : List String) (x : String) :
    x ∈ dedupFirst l ↔ x ∈ l := by
  rw [dedupFirst, mem_dedupFirstAux]
  simp

theorem nodup_dedupFirstAux :
    ∀ (l seen : List String), (dedupFirstAux seen l).Nodup := by
  intro l
  induction l with
  | nil => intro seen; simp [dedupFirstAux]
  | cons a rest ih =>
    intro seen
    by_cases ha : seen.contains a
    · rw [dedupFirstAux, if_pos ha]
      exact ih seen
    · rw [dedupFirstAux, if_neg ha]
      refine List.nodup_cons.mpr ⟨?_, ih (a :: seen)⟩
      rw [mem_dedupFirstAux]
      simp

theorem nodup_dedupFirst (l : List String) : (dedupFirst l).Nodup :=
  nodup_dedupFirstAux l []

theorem specContribution_eq (r : FhirResource) :
    specContribution r =
      if (rawPatientId r).getD "" = "" then [] else [(rawPatientId r).getD ""] := by
  rcases r with ⟨rt, id, sr⟩
  by_cases h : rt = "Patient"
  · cases id with
    | none => simp [specContribution, rawPatientId, h]
    | some i =>
      by_cases hi : i = "" <;> simp [specContribution, rawPatientId, h, hi]
  · cases sr with
    | none => simp [specContribution, rawPatientId, h]
    | some s =>
      have key : ∀ o : Option String,
          (match o with
            | some i => if i = "" then [] else [i]
            | none => ([] : List String)) =
            if o.getD "" = "" then [] else [o.getD ""] := by
        intro o
        cases o with
        | none => simp
        | some i => by_cases hi : i = "" <;> simp [hi]
      unfold specContribution rawPatientId
      rw [if_neg h, if_neg h]
      exact key ((jsSplit '/' s).get? 1)

theorem stringAppendLeftCancel (p a b : String) (h : p ++ a = p ++ b) : a = b := by
  have hd : (p ++ a).data = (p ++ b).data := congrArg String.data h
  rw [String.data_append, String.data_append] at hd
  exact String.ext (List.append_cancel_left hd)

theorem memberRef_injective :
    Function.Injective (fun id => GroupMember.mk ("Patient/" ++ id)) := by
  intro a b h
  have h2 : "Patient/" ++ a = "Patient/" ++ b := congrArg GroupMember.reference h
  exact stringAppendLeftCancel _ _ _ h2

/-!  Claim theorems.  -/

/-- Claim C1, counterexample.  The claim says only the first query seeds the
running set and an empty running set after a fold is never replaced wholesale
by a later query's result set.  The code uses `currentPatientIds.length === 0`
as the sentinel, so with two include queries where the first matches nothing,
the second query re-seeds: the code yields `["C"]` while the spec-worded fold
(tagged unset sentinel) yields `[]`. -/
theorem c1_counterexample :
    foldIds envC1 outC1.queries = .ok ["C"] ∧
    specFoldIds envC1 outC1.queries = .ok [] ∧
    foldIds envC1 outC1.queries ≠ specFoldIds envC1 outC1.queries := by
  refine ⟨rfl, rfl, ?_⟩
  intro h
  have h2 : (Except.ok ["C"] : Except String (List String)) = .ok [] := h
  simp at h2

/-- Claim C1, amended.  A query seeds (wholesale replaces) the running set
whenever the set is empty at that point — both initially and after a fold that
emptied it: if a prefix of the queries folds to the empty id list, the final
id list equals the fold of the remaining queries alone. -/
theorem c1_reseed_on_empty (env : SearchEnv) (qs1 qs2 : List Query)
    (h : foldIds env qs1 = .ok []) :
    foldIds env (qs1 ++ qs2) = foldIds env qs2 := by
  unfold foldIds at *
  cases hr : runQueriesAux env [] [] qs1 with
  | error e => rw [hr] at h; exact absurd h (by simp [Except.map])
  | ok p =>
    rw [hr] at h
    have hp1 : p.1 = [] := by
      simpa [Except.map] using h
    rw [runQueriesAux_append env qs1 qs2 [] [], hr]
    dsimp only
    rw [hp1]
    exact runQueriesAux_fst_exts env qs2 [] p.2

/-- Claim C1, witness for the amended theorem at a concrete input: query `q1`
matches nothing, so the final fold over `[q1, q2]` equals the fold over `[q2]`
alone. -/
theorem c1_reseed_witness :
    foldIds envC1 ([mkQuery "q1" false] ++ [mkQuery "q2" false]) =
      foldIds envC1 [mkQuery "q2" false] :=
  c1_reseed_on_empty envC1 [mkQuery "q1" false] [mkQuery "q2" false] rfl

/-- Claim C2: once the running set `cur` is non-empty, folding in the next
query's identifiers `ids` yields exactly the members of `cur` not in `ids`
when the query excludes, and exactly the members of `cur` also in `ids`
when it includes. -/
theorem c2_fold_membership (cur ids : List String) (q : Query)
    (h : cur ≠ []) (x : String) :
    x ∈ foldStep cur q ids ↔
      x ∈ cur ∧ (if q.exclude then x ∉ ids else x ∈ ids) := by
  have hlen : ¬ cur.length = 0 := by
    simpa [List.length_eq_zero] using h
  unfold foldStep performSetOperation
  rw [if_neg hlen]
  cases hq : q.exclude with
  | false => simp [List.mem_filter, List.elem_iff]
  | true => simp [List.mem_filter, List.elem_iff]

/-- Claim C2, witness: with running set `{A,B,C}` and an exclude query
producing `{B}`, membership of `A` is decided exactly by `A ∈ {A,B,C}` and
`A ∉ {B}`. -/
theorem c2_fold_membership_witness :
    "A" ∈ foldStep ["A", "B", "C"] (mkQuery "exc" true) ["B"] ↔
      "A" ∈ ["A", "B", "C"] ∧
        (if (mkQuery "exc" true).exclude then "A" ∉ ["B"] else "A" ∈ ["B"]) :=
  c2_fold_membership ["A", "B", "C"] ["B"] (mkQuery "exc" true) (by decide) "A"

/-- Claim C3, counterexample.  A specification whose first (and only) query
has `exclude = true` is neither rejected nor undefined: the code seeds the
running set with that query's matches and produces a persisted cohort with
member `Patient/B`. -/
theorem c3_counterexample :
    ((createCohortGroup envC3 outC3 []).1).map Group.member =
      .ok [{ reference := "Patient/B" }] := rfl

/-- Claim C3, amended.  A first query with `exclude = true` is not rejected:
the first query always seeds the running set with its own matches, so the
final id list is invariant to the first query's exclude flag; and swapping
the order of an include and an exclude query can change the final set
(include-{A,B} then exclude-{B} gives `["A"]`, the swapped order gives
`["B"]`). -/
theorem c3_first_exclude_seeds :
    (∀ (env : SearchEnv) (q : Query) (qs : List Query),
      foldIds env ({ q with exclude := true } :: qs) =
        foldIds env ({ q with exclude := false } :: qs)) ∧
    foldIds envC3 [mkQuery "inc" false, mkQuery "exc" true] ≠
      foldIds envC3 [mkQuery "exc" true, mkQuery "inc" false] := by
  constructor
  · intro env q qs
    unfold foldIds
    simp only [runQueriesAux]
    have hexeT : executeQuery env { q with exclude := true } = executeQuery env q := rfl
    have hexeF : executeQuery env { q with exclude := false } = executeQuery env q := rfl
    rw [hexeT, hexeF]
    cases h : executeQuery env q with
    | error e => rfl
    | ok ids =>
      dsimp only
      have hfT : foldStep [] { q with exclude := true } ids = ids := rfl
      have hfF : foldStep [] { q with exclude := false } ids = ids := rfl
      rw [hfT, hfF]
      rw [runQueriesAux_fst_exts env qs ids ([] ++ [mkCriteriaExtension { q with exclude := true }]),
        runQueriesAux_fst_exts env qs ids ([] ++ [mkCriteriaExtension { q with exclude := false }])]
  · intro h
    have h2 : (Except.ok ["A"] : Except String (List String)) = .ok ["B"] := h
    simp at h2

/-- Claim C4, counterexample.  A specification with zero queries is silently
materialized: even against an environment where every search would fail, the
code persists a group with zero members and zero traceability entries, and
reports no error or warning. -/
theorem c4_counterexample :
    createCohortGroup envFail outC4 [] =
      (.ok (buildGroup outC4 [] []), [buildGroup outC4 [] []]) ∧
    (buildGroup outC4 [] []).member = [] ∧
    (buildGroup outC4 [] []).extension = [{ url := cohortQueryUrl, extension := [] }] :=
  ⟨rfl, rfl, rfl⟩

/-- Claim C4, amended.  Zero queries yield an empty final member set, and the
case is silently materialized: the group is persisted with zero members and
zero traceability entries, with no rejection and no warning. -/
theorem c4_empty_spec_materializes (env : SearchEnv) (out : CohortOutput)
    (store : List Group) (h : out.queries = []) :
    createCohortGroup env out store =
      (.ok (buildGroup out [] []), store ++ [buildGroup out [] []]) ∧
    (buildGroup out [] []).member = [] ∧
    (buildGroup out [] []).extension = [{ url := cohortQueryUrl, extension := [] }] := by
  refine ⟨?_, rfl, rfl⟩
  unfold createCohortGroup
  rw [h]
  rfl

/-- Claim C4, witness for the amended theorem at a concrete empty
specification. -/
theorem c4_empty_spec_witness :
    createCohortGroup envC3 outC4 [buildGroup outC1 [] []] =
      (.ok (buildGroup outC4 [] []), [buildGroup outC1 [] []] ++ [buildGroup outC4 [] []]) ∧
    (buildGroup outC4 [] []).member = [] ∧
    (buildGroup outC4 [] []).extension = [{ url := cohortQueryUrl, extension := [] }] :=
  c4_empty_spec_materializes envC3 outC4 [buildGroup outC1 [] []] rfl

/-- Claim C5: if the search of some query fails, the whole cohort computation
aborts with the first such search failure and the store of created resources
is left untouched — no partial group is persisted. -/
theorem c5_search_failure_aborts (env : SearchEnv) (out : CohortOutput)
    (store : List Group) (e : String)
    (h : firstSearchFailure env out.queries = some e) :
    createCohortGroup env out store = (.error e, store) := by
  unfold createCohortGroup
  rw [runQueriesAux_firstFailure env out.queries e h [] []]

/-- Claim C5, witness: against an environment where every search fails, the
one-query specification aborts with that failure and nothing is stored. -/
theorem c5_search_failure_witness :
    createCohortGroup envFail outFail [] = (.error "search failed", []) :=
  c5_search_failure_aborts envFail outFail [] "search failed" rfl

/-- Claim C6: identifier extraction is exactly the per-entity contribution of
the spec — an entity of type Patient contributes its own id, any other entity
contributes the second `/`-separated segment of its subject-reference field,
and an entity yielding no (non-empty) identifier contributes nothing, without
error. -/
theorem c6_extraction (rs : List FhirResource) :
    extractPatientIds rs = rs.flatMap specContribution := by
  induction rs with
  | nil => rfl
  | cons r rs ih =>
    rw [List.flatMap_cons, specContribution_eq, ← ih]
    unfold extractPatientIds
    rw [List.map_cons, List.filter_cons]
    by_cases h : (rawPatientId r).getD "" = ""
    · rw [if_pos h, if_neg (by simp [h])]
      rfl
    · rw [if_neg h, if_pos (by simp [h])]
      rfl

/-- Claim C7: on success, the persisted group carries exactly one
traceability extension per query of the specification, in the original
order — each built by `mkCriteriaExtension`, which records the query's
search parameters, its exclude flag, and its rationale when non-empty. -/
theorem c7_traceability (env : SearchEnv) (out : CohortOutput)
    (store store2 : List Group) (g : Group)
    (h : createCohortGroup env out store = (.ok g, store2)) :
    g.extension =
      [{ url := cohortQueryUrl, extension := out.queries.map mkCriteriaExtension }] ∧
    (out.queries.map mkCriteriaExtension).length = out.queries.length := by
  refine ⟨?_, List.length_map _ _⟩
  unfold createCohortGroup at h
  cases hr : runQueriesAux env [] [] out.queries with
  | error e => rw [hr] at h; simp at h
  | ok p =>
    rw [hr] at h
    have hg : g = buildGroup out p.1 p.2 := by
      have := congrArg Prod.fst h
      simpa using this.symm
    have hes : p.2 = [] ++ out.queries.map mkCriteriaExtension :=
      runQueriesAux_success_exts env out.queries [] p.1 [] p.2 (by rw [hr])
    rw [hg, buildGroup]
    simp [hes]

/-- Claim C7, witness at a concrete one-query specification (the duplicate
Condition query). -/
theorem c7_traceability_witness :
    (buildGroup outDup ["A", "A", "B", "B", "A"]
        (outDup.queries.map mkCriteriaExtension)).extension =
      [{ url := cohortQueryUrl, extension := outDup.queries.map mkCriteriaExtension }] ∧
    (outDup.queries.map mkCriteriaExtension).length = outDup.queries.length :=
  c7_traceability envDup outDup []
    ([] ++ [buildGroup outDup ["A", "A", "B", "B", "A"]
      (outDup.queries.map mkCriteriaExtension)])
    (buildGroup outDup ["A", "A", "B", "B", "A"]
      (outDup.queries.map mkCriteriaExtension)) rfl

/-- Claim C8: whatever the specification and whatever the search results
(duplicates within a page or across pages included), the member list of the
persisted group is duplicate-free. -/
theorem c8_members_nodup (env : SearchEnv) (out : CohortOutput)
    (store store2 : List Group) (g : Group)
    (h : createCohortGroup env out store = (.ok g, store2)) :
    g.member.Nodup := by
  unfold createCohortGroup at h
  cases hr : runQueriesAux env [] [] out.queries with
  | error e => rw [hr] at h; simp at h
  | ok p =>
    rw [hr] at h
    have hg : g = buildGroup out p.1 p.2 := by
      have := congrArg Prod.fst h
      simpa using this.symm
    rw [hg, buildGroup]
    exact (nodup_dedupFirst p.1).map memberRef_injective

/-- Claim C8, witness: the group built from the duplicate-producing Condition
query has a duplicate-free member list. -/
theorem c8_members_nodup_witness :
    (buildGroup outDup ["A", "A", "B", "B", "A"]
      (outDup.queries.map mkCriteriaExtension)).member.Nodup :=
  c8_members_nodup envDup outDup []
    ([] ++ [buildGroup outDup ["A", "A", "B", "B", "A"]
      (outDup.queries.map mkCriteriaExtension)])
    (buildGroup outDup ["A", "A", "B", "B", "A"]
      (outDup.queries.map mkCriteriaExtension)) rfl

/-- Claim C9: replacing the rationale field of every query — and nothing
else — never changes the member list of the materialized group (nor whether
the computation succeeds). -/
theorem c9_rationale_never_affects_members (env : SearchEnv) (out : CohortOutput)
    (f : Query → String) (store : List Group) :
    ((createCohortGroup env (setRationales f out) store).1).map Group.member =
      ((createCohortGroup env out store).1).map Group.member := by
  unfold createCohortGroup setRationales
  have hfst := runQueriesAux_rationale env f out.queries [] [] []
  cases hr : runQueriesAux env [] [] out.queries with
  | error e =>
    rw [hr] at hfst
    cases hm : runQueriesAux env [] [] (out.queries.map (fun q => { q with rationale := f q })) with
    | error e2 =>
      rw [hm] at hfst
      simp only [Except.map] at hfst
      injection hfst with he
      rw [he]
    | ok p =>
      rw [hm] at hfst
      simp [Except.map] at hfst
  | ok p =>
    rw [hr] at hfst
    cases hm : runQueriesAux env [] [] (out.queries.map (fun q => { q with rationale := f q })) with
    | error e2 =>
      rw [hm] at hfst
      simp [Except.map] at hfst
    | ok p2 =>
      rw [hm] at hfst
      simp only [Except.map, Except.ok.injEq] at hfst
      dsimp only
      simp only [Except.map, Except.ok.injEq]
      rw [buildGroup, buildGroup]
      simp [hfst]

/-- Claim C10: on success, every member of the persisted group is the
reference `Patient/<id>` for an id of the final (deduplicated) fold result —
regardless of the entity types the queries searched. -/
theorem c10_members_patient_refs (env : SearchEnv) (out : CohortOutput)
    (store store2 : List Group) (g : Group)
    (h : createCohortGroup env out store = (.ok g, store2)) :
    ∃ ids, foldIds env out.queries = .ok ids ∧
      g.member = (dedupFirst ids).map (fun id => GroupMember.mk ("Patient/" ++ id)) ∧
      ∀ m ∈ g.member, ∃ id, m.reference = "Patient/" ++ id := by
  unfold createCohortGroup at h
  cases hr : runQueriesAux env [] [] out.queries with
  | error e => rw [hr] at h; simp at h
  | ok p =>
    rw [hr] at h
    have hg : g = buildGroup out p.1 p.2 := by
      have := congrArg Prod.fst h
      simpa using this.symm
    refine ⟨p.1, by simp [foldIds, hr, Except.map], ?_, ?_⟩
    · rw [hg, buildGroup]
    · intro m hm
      rw [hg, buildGroup] at hm
      simp only [List.mem_map] at hm
      obtain ⟨id, _, hid⟩ := hm
      exact ⟨id, by rw [← hid]⟩

/-- Claim C10, witness: the group built from the Condition query (a
non-Patient entity type) has members referenced as `Patient/<id>`. -/
theorem c10_members_patient_refs_witness :
    ∃ ids, foldIds envDup outDup.queries = .ok ids ∧
      (buildGroup outDup ["A", "A", "B", "B", "A"]
          (outDup.queries.map mkCriteriaExtension)).member =
        (dedupFirst ids).map (fun id => GroupMember.mk ("Patient/" ++ id)) ∧
      ∀ m ∈ (buildGroup outDup ["A", "A", "B", "B", "A"]
          (outDup.queries.map mkCriteriaExtension)).member,
        ∃ id, m.reference = "Patient/" ++ id :=
  c10_members_patient_refs envDup outDup []
    ([] ++ [buildGroup outDup ["A", "A", "B", "B", "A"]
      (outDup.queries.map mkCriteriaExtension)])
    (buildGroup outDup ["A", "A", "B", "B", "A"]
      (outDup.queries.map mkCriteriaExtension)) rfl

end CohortBot
